import Mathlib

/-!
Verification of the item-catalog use-case layer
(`internal/usecase/service.go` of Jo042/coding_test_action).

The Go use-case functions are shallowly embedded as Lean functions.
The storage dependency (`ItemRepository`) is modelled as a record of
response oracles, and every operation additionally returns the list of
storage calls it performed, so that "storage op never invoked" becomes a
statement about that trace.  Go `string` is modelled as `String`,
`int`/`int64` as `Int`, `time.Time` instants as `Int`, and Go maps as
association lists with duplicate-free key lists.
-/

namespace ItemCatalog

/-- Go's `unicode.IsSpace`: the whitespace characters trimmed by
`strings.TrimSpace` (Latin-1 spaces plus the Unicode `White_Space` class). -/
def goIsSpace (c : Char) : Bool :=
  c = '\t' || c = '\n' || c.val = 0x0B || c.val = 0x0C || c = '\r' || c = ' ' ||
  c.val = 0x85 || c.val = 0xA0 || c.val = 0x1680 ||
  (0x2000 ≤ c.val && c.val ≤ 0x200A) ||
  c.val = 0x2028 || c.val = 0x2029 || c.val = 0x202F || c.val = 0x205F ||
  c.val = 0x3000

/-- Model of Go `strings.TrimSpace`: drop leading and trailing whitespace. -/
def trimSpace (s : String) : String :=
  ⟨((s.data.dropWhile goIsSpace).reverse.dropWhile goIsSpace).reverse⟩

/-- Number of bytes of one character in UTF-8. -/
def charUtf8Size (c : Char) : Nat :=
  if c.val < 0x80 then 1
  else if c.val < 0x800 then 2
  else if c.val < 0x10000 then 3
  else 4

/-- Model of Go `len` on a `string`: its UTF-8 byte length. -/
def goLen (s : String) : Nat :=
  s.data.foldl (fun n c => n + charUtf8Size c) 0

/-- The `entity.Item` struct (`internal/domain/entity`, fields as used by
`service.go` and the controller test; timestamps as abstract instants). -/
structure Item where
  id : Int
  name : String
  category : String
  brand : String
  purchasePrice : Int
  purchaseDate : String
  createdAt : Int
  updatedAt : Int
deriving DecidableEq, Repr

/-- Modelled from the spec: the `internal/domain/errors` package is not under
`src/`.  Per §6/§9 storage failures form a small closed set — a
distinguishable "not found" condition or a generic failure. -/
inductive StorageErr where
  | notFound : StorageErr
  | failure : String → StorageErr
deriving DecidableEq, Repr

/-- Modelled from the spec: `domainErrors.IsNotFoundError` (package not under
`src/`) — the capability check classifying a storage error as "not found". -/
def IsNotFoundError : StorageErr → Bool
  | .notFound => true
  | .failure _ => false

/-- Errors surfaced by the use-case layer: `domainErrors.ErrInvalidInput`
(possibly wrapped with a detail message, "" when returned bare),
`domainErrors.ErrItemNotFound`, and storage failures wrapped by
`fmt.Errorf("<context>: %w", err)` which the spec's §7 classifies as
`InternalError`. -/
inductive UsecaseErr where
  | invalidInput : String → UsecaseErr
  | itemNotFound : UsecaseErr
  | internalError : String → StorageErr → UsecaseErr
deriving DecidableEq, Repr

/-- Whether an error is of the `InvalidInput` kind. -/
def isInvalidInput : UsecaseErr → Bool
  | .invalidInput _ => true
  | _ => false

/-- Modelled from the spec: `entity.GetValidCategories`
(`internal/domain/entity` is not under `src/`) — the fixed, ordered,
duplicate-free valid-category vocabulary; the spec names "時計" as a member. -/
def GetValidCategories : List String :=
  ["時計", "バッグ", "ジュエリー", "靴", "その他"]

/-- `usecase.UpdateItemInput`: PATCH input with per-field presence
(Go pointer fields become `Option`). -/
structure UpdateItemInput where
  name : Option String
  brand : Option String
  purchasePrice : Option Int
deriving DecidableEq, Repr

/-- `usecase.CategorySummary`; the Go `map[string]int` is modelled as an
association list with duplicate-free keys. -/
structure CategorySummary where
  categories : List (String × Int)
  total : Int
deriving DecidableEq, Repr

/-- Association-list lookup, modelling Go map access `m[k]`. -/
def lookupAssoc (l : List (String × Int)) (k : String) : Option Int :=
  match l with
  | [] => none
  | (k', v) :: rest => if k' = k then some v else lookupAssoc rest k

/-- The `ItemRepository` storage abstraction, modelled as response oracles
for the operations `service.go` uses. -/
structure Repo where
  findByID : Int → Except StorageErr Item
  update : Item → Except StorageErr Unit
  delete : Int → Except StorageErr Unit
  getSummaryByCategory : Except StorageErr (List (String × Int))

/-- One storage call, for recording which repository operations ran. -/
inductive RepoCall where
  | findByID : Int → RepoCall
  | update : Item → RepoCall
  | delete : Int → RepoCall
  | summary : RepoCall
deriving DecidableEq, Repr

/-- `GetItemByID` (service.go:59-73): reject `id <= 0`, translate storage
not-found, wrap other storage failures. -/
def GetItemByID (repo : Repo) (id : Int) :
    Except UsecaseErr Item × List RepoCall :=
  if id ≤ 0 then (.error (.invalidInput ""), [])
  else
    match repo.findByID id with
    | .error e =>
      if IsNotFoundError e then (.error .itemNotFound, [.findByID id])
      else (.error (.internalError "failed to retrieve item" e), [.findByID id])
    | .ok item => (.ok item, [.findByID id])

/-- `DeleteItem` (service.go:96-115): reject `id <= 0`, check existence via
`FindByID`, then delete. -/
def DeleteItem (repo : Repo) (id : Int) :
    Except UsecaseErr Unit × List RepoCall :=
  if id ≤ 0 then (.error (.invalidInput ""), [])
  else
    match repo.findByID id with
    | .error e =>
      if IsNotFoundError e then (.error .itemNotFound, [.findByID id])
      else (.error (.internalError "failed to check item existence" e), [.findByID id])
    | .ok _ =>
      match repo.delete id with
      | .error e =>
        (.error (.internalError "failed to delete item" e), [.findByID id, .delete id])
      | .ok _ => (.ok (), [.findByID id, .delete id])

/-- The entry the summary loop (service.go:130-136) builds for one valid
category: the storage-reported count when present, otherwise 0. -/
def summaryEntry (counts : List (String × Int)) (category : String) : String × Int :=
  match lookupAssoc counts category with
  | some count => (category, count)
  | none => (category, 0)

/-- `GetCategorySummary` (service.go:117-142): sum every storage-reported
count, then build the summary map by iterating the valid categories,
copying present counts and zero-filling absent ones. -/
def GetCategorySummary (repo : Repo) :
    Except UsecaseErr CategorySummary × List RepoCall :=
  match repo.getSummaryByCategory with
  | .error e => (.error (.internalError "failed to get category summary" e), [.summary])
  | .ok categoryCounts =>
    (.ok { categories := GetValidCategories.map (summaryEntry categoryCounts),
           total := categoryCounts.foldl (fun t p => t + p.2) 0 }, [.summary])

/-- The `input.Name != nil` branch of `UpdateItem` (service.go:166-175):
trim, reject empty or over-long, else assign. -/
def updateNameField (input : UpdateItemInput) (item : Item) :
    Except UsecaseErr Item :=
  match input.name with
  | none => .ok item
  | some raw =>
    let name := trimSpace raw
    if name = "" then .error (.invalidInput "name is required")
    else if goLen name > 100 then
      .error (.invalidInput "name must be 100 characters or less")
    else .ok { item with name := name }

/-- The `input.Brand != nil` branch of `UpdateItem` (service.go:178-187). -/
def updateBrandField (input : UpdateItemInput) (item : Item) :
    Except UsecaseErr Item :=
  match input.brand with
  | none => .ok item
  | some raw =>
    let brand := trimSpace raw
    if brand = "" then .error (.invalidInput "brand is required")
    else if goLen brand > 100 then
      .error (.invalidInput "brand must be 100 characters or less")
    else .ok { item with brand := brand }

/-- The `input.PurchasePrice != nil` branch of `UpdateItem`
(service.go:190-195): reject negative, else assign. -/
def updatePriceField (input : UpdateItemInput) (item : Item) :
    Except UsecaseErr Item :=
  match input.purchasePrice with
  | none => .ok item
  | some price =>
    if price < 0 then .error (.invalidInput "purchase_price must be 0 or greater")
    else .ok { item with purchasePrice := price }

/-- `UpdateItem` (service.go:144-211): id check, at-least-one-field check,
fetch, per-field validate+mutate, refresh `UpdatedAt` to `now`
(`time.Now()`), persist. -/
def UpdateItem (repo : Repo) (now : Int) (id : Int) (input : UpdateItemInput) :
    Except UsecaseErr Item × List RepoCall :=
  if id ≤ 0 then (.error (.invalidInput ""), [])
  else if input.name = none ∧ input.brand = none ∧ input.purchasePrice = none then
    (.error (.invalidInput "at least one of name, brand, or purchase_price must be provided"), [])
  else
    match repo.findByID id with
    | .error e =>
      if IsNotFoundError e then (.error .itemNotFound, [.findByID id])
      else (.error (.internalError "failed to retrieve item" e), [.findByID id])
    | .ok item =>
      match updateNameField input item with
      | .error e => (.error e, [.findByID id])
      | .ok item1 =>
        match updateBrandField input item1 with
        | .error e => (.error e, [.findByID id])
        | .ok item2 =>
          match updatePriceField input item2 with
          | .error e => (.error e, [.findByID id])
          | .ok item3 =>
            match repo.update { item3 with updatedAt := now } with
            | .error e =>
              (.error (.internalError "failed to update item" e),
                [.findByID id, .update { item3 with updatedAt := now }])
            | .ok _ =>
              (.ok { item3 with updatedAt := now },
                [.findByID id, .update { item3 with updatedAt := now }])

/-- An item with its name and update instant replaced (used to spell out the
expected result of a name-only update in concrete witnesses). -/
def Item.withName (it : Item) (n : String) (t : Int) : Item :=
  { it with name := n, updatedAt := t }

/-- Sample stored item used by concrete witnesses. -/
def sampleItem : Item :=
  { id := 1, name := "Watch", category := "時計", brand := "ROLEX",
    purchasePrice := 1500000, purchaseDate := "2023-01-15",
    createdAt := 5, updatedAt := 5 }

/-- Concrete repository used by witnesses: item 1 exists, all writes succeed. -/
def sampleRepo : Repo :=
  { findByID := fun i => if i = 1 then .ok sampleItem else .error .notFound,
    update := fun _ => .ok (),
    delete := fun _ => .ok (),
    getSummaryByCategory := .ok [("時計", 2)] }

/-- Concrete repository whose category report contains a key outside the
valid-category set. -/
def invalidKeyRepo : Repo :=
  { sampleRepo with getSummaryByCategory := .ok [("時計", 2), ("偽物", 3)] }

/-- Concrete PATCH input used by the C2 witness. -/
def c2Input : UpdateItemInput :=
  { name := some " 腕時計 ", brand := some " Cartier ", purchasePrice := none }

/-- A 34-character Japanese name: 34 characters but 102 UTF-8 bytes. -/
def longKanjiName : String :=
  String.mk (List.replicate 34 '時')

/-! ### Helper lemmas -/

theorem updateNameField_ok (input : UpdateItemInput) (item item' : Item)
    (h : updateNameField input item = .ok item') :
    item'.id = item.id ∧ item'.category = item.category ∧
    item'.purchaseDate = item.purchaseDate ∧ item'.createdAt = item.createdAt ∧
    item'.brand = item.brand ∧ item'.purchasePrice = item.purchasePrice ∧
    item'.updatedAt = item.updatedAt ∧
    (input.name = none → item'.name = item.name) ∧
    (∀ raw, input.name = some raw → item'.name = trimSpace raw) := by
  unfold updateNameField at h
  cases hn : input.name with
  | none => simp [hn] at h; simp [← h, hn]
  | some raw =>
    simp only [hn] at h
    split at h
    · exact absurd h (by simp)
    · split at h
      · exact absurd h (by simp)
      · simp only [Except.ok.injEq] at h
        simp [← h, hn]

theorem updateBrandField_ok (input : UpdateItemInput) (item item' : Item)
    (h : updateBrandField input item = .ok item') :
    item'.id = item.id ∧ item'.category = item.category ∧
    item'.purchaseDate = item.purchaseDate ∧ item'.createdAt = item.createdAt ∧
    item'.name = item.name ∧ item'.purchasePrice = item.purchasePrice ∧
    item'.updatedAt = item.updatedAt ∧
    (input.brand = none → item'.brand = item.brand) ∧
    (∀ raw, input.brand = some raw → item'.brand = trimSpace raw) := by
  unfold updateBrandField at h
  cases hb : input.brand with
  | none => simp [hb] at h; simp [← h, hb]
  | some raw =>
    simp only [hb] at h
    split at h
    · exact absurd h (by simp)
    · split at h
      · exact absurd h (by simp)
      · simp only [Except.ok.injEq] at h
        simp [← h, hb]

theorem updatePriceField_ok (input : UpdateItemInput) (item item' : Item)
    (h : updatePriceField input item = .ok item') :
    item'.id = item.id ∧ item'.category = item.category ∧
    item'.purchaseDate = item.purchaseDate ∧ item'.createdAt = item.createdAt ∧
    item'.name = item.name ∧ item'.brand = item.brand ∧
    item'.updatedAt = item.updatedAt ∧
    (input.purchasePrice = none → item'.purchasePrice = item.purchasePrice) ∧
    (∀ p, input.purchasePrice = some p → item'.purchasePrice = p) := by
  unfold updatePriceField at h
  cases hp : input.purchasePrice with
  | none => simp [hp] at h; simp [← h, hp]
  | some p =>
    simp only [hp] at h
    split at h
    · exact absurd h (by simp)
    · simp only [Except.ok.injEq] at h
      simp [← h, hp]

theorem UpdateItem_ok_spec (repo : Repo) (now id : Int) (input : UpdateItemInput)
    (result : Item) (calls : List RepoCall)
    (h : UpdateItem repo now id input = (.ok result, calls)) :
    ∃ stored i1 i2 i3,
      repo.findByID id = .ok stored ∧
      updateNameField input stored = .ok i1 ∧
      updateBrandField input i1 = .ok i2 ∧
      updatePriceField input i2 = .ok i3 ∧
      result = { i3 with updatedAt := now } ∧
      calls = [.findByID id, .update result] := by
  unfold UpdateItem at h
  split at h
  · exact absurd h (by simp)
  · split at h
    · exact absurd h (by simp)
    · rename_i hfind
      split at h
      · split at h <;> exact absurd h (by simp)
      · rename_i stored hstored
        split at h
        · exact absurd h (by simp)
        · rename_i i1 h1
          split at h
          · exact absurd h (by simp)
          · rename_i i2 h2
            split at h
            · exact absurd h (by simp)
            · rename_i i3 h3
              split at h
              · exact absurd h (by simp)
              · simp only [Prod.mk.injEq, Except.ok.injEq] at h
                exact ⟨stored, i1, i2, i3, hstored, h1, h2, h3,
                  h.1.symm, by rw [← h.2, h.1]⟩

/-! ### Claims -/

/-- C1: every successful `UpdateItem(id, input)` returns (and passes to the
storage `update` call) an item keeping `id`, `category`, `purchaseDate` and
`createdAt` equal to the stored item's values, and every one of `name`,
`brand`, `purchasePrice` absent from the input is also left unchanged. -/
theorem updateItem_frame (repo : Repo) (now id : Int) (input : UpdateItemInput)
    (result : Item) (calls : List RepoCall)
    (h : UpdateItem repo now id input = (.ok result, calls)) :
    ∃ stored, repo.findByID id = .ok stored ∧
      result.id = stored.id ∧
      result.category = stored.category ∧
      result.purchaseDate = stored.purchaseDate ∧
      result.createdAt = stored.createdAt ∧
      (input.name = none → result.name = stored.name) ∧
      (input.brand = none → result.brand = stored.brand) ∧
      (input.purchasePrice = none → result.purchasePrice = stored.purchasePrice) ∧
      calls = [.findByID id, .update result] := by
  obtain ⟨stored, i1, i2, i3, hstored, h1, h2, h3, hres, hcalls⟩ :=
    UpdateItem_ok_spec repo now id input result calls h
  obtain ⟨e1id, e1cat, e1date, e1created, e1brand, e1price, _, e1name, _⟩ :=
    updateNameField_ok input stored i1 h1
  obtain ⟨e2id, e2cat, e2date, e2created, e2name, e2price, _, e2brand, _⟩ :=
    updateBrandField_ok input i1 i2 h2
  obtain ⟨e3id, e3cat, e3date, e3created, e3name, e3brand, _, e3price, _⟩ :=
    updatePriceField_ok input i2 i3 h3
  refine ⟨stored, hstored, ?_, ?_, ?_, ?_, ?_, ?_, ?_, hcalls⟩ <;>
    subst hres <;> simp_all

/-- Witness for C1 at a concrete input: updating only the name of item 1. -/
theorem updateItem_frame_witness :
    ∃ stored, sampleRepo.findByID 1 = .ok stored ∧
      (sampleItem.withName (trimSpace " New ") 9).id = stored.id ∧
      (sampleItem.withName (trimSpace " New ") 9).category = stored.category ∧
      (sampleItem.withName (trimSpace " New ") 9).purchaseDate = stored.purchaseDate ∧
      (sampleItem.withName (trimSpace " New ") 9).createdAt = stored.createdAt ∧
      (({ name := some " New ", brand := none, purchasePrice := none } :
          UpdateItemInput).name = none →
        (sampleItem.withName (trimSpace " New ") 9).name = stored.name) ∧
      (({ name := some " New ", brand := none, purchasePrice := none } :
          UpdateItemInput).brand = none →
        (sampleItem.withName (trimSpace " New ") 9).brand = stored.brand) ∧
      (({ name := some " New ", brand := none, purchasePrice := none } :
          UpdateItemInput).purchasePrice = none →
        (sampleItem.withName (trimSpace " New ") 9).purchasePrice = stored.purchasePrice) ∧
      [RepoCall.findByID 1, RepoCall.update (sampleItem.withName (trimSpace " New ") 9)] =
        [.findByID 1, .update (sampleItem.withName (trimSpace " New ") 9)] :=
  updateItem_frame sampleRepo 9 1
    { name := some " New ", brand := none, purchasePrice := none }
    (sampleItem.withName (trimSpace " New ") 9)
    [RepoCall.findByID 1, RepoCall.update (sampleItem.withName (trimSpace " New ") 9)]
    rfl

/-- C6: for every `id ≤ 0`, each of `GetItemByID`, `DeleteItem` and
`UpdateItem` fails with `InvalidInput` and performs no storage call. -/
theorem id_nonpositive_invalid (repo : Repo) (now id : Int)
    (input : UpdateItemInput) (h : id ≤ 0) :
    GetItemByID repo id = (.error (.invalidInput ""), []) ∧
    DeleteItem repo id = (.error (.invalidInput ""), []) ∧
    UpdateItem repo now id input = (.error (.invalidInput ""), []) := by
  unfold GetItemByID DeleteItem UpdateItem
  simp [h]

/-- Witness for C6 at `id = 0`. -/
theorem id_nonpositive_invalid_witness :
    GetItemByID sampleRepo 0 = (.error (.invalidInput ""), []) ∧
    DeleteItem sampleRepo 0 = (.error (.invalidInput ""), []) ∧
    UpdateItem sampleRepo 9 0 { name := some "x", brand := none, purchasePrice := none } =
      (.error (.invalidInput ""), []) :=
  id_nonpositive_invalid sampleRepo 9 0
    { name := some "x", brand := none, purchasePrice := none } (by decide)

/-- C7: for every id, `UpdateItem` with an input in which none of `name`,
`brand`, `purchasePrice` is present fails with `InvalidInput` without
calling storage. -/
theorem updateItem_empty_input_invalid (repo : Repo) (now id : Int) :
    ∃ msg, UpdateItem repo now id { name := none, brand := none, purchasePrice := none } =
      (.error (.invalidInput msg), []) := by
  by_cases h : id ≤ 0
  · exact ⟨"", by unfold UpdateItem; simp [h]⟩
  · exact ⟨"at least one of name, brand, or purchase_price must be provided",
      by unfold UpdateItem; simp [h]⟩

/-- C5: with `id > 0`, `DeleteItem` checks existence via `findByID` first:
a storage not-found yields `ItemNotFound` with `delete` never invoked, and
only when the item exists is `delete` called (right after the lookup). -/
theorem deleteItem_existence_first (repo : Repo) (id : Int) (h : 0 < id) :
    (repo.findByID id = .error .notFound →
      DeleteItem repo id = (.error .itemNotFound, [.findByID id])) ∧
    (∀ item, repo.findByID id = .ok item →
      (DeleteItem repo id).2 = [.findByID id, .delete id]) := by
  have hid : ¬id ≤ 0 := not_le.mpr h
  constructor
  · intro hf
    unfold DeleteItem
    simp [hid, hf, IsNotFoundError]
  · intro item hf
    unfold DeleteItem
    simp only [hid, if_false, hf]
    cases repo.delete id <;> simp

/-- Witness for C5: item 2 does not exist in `sampleRepo` (not-found branch);
item 1 exists (delete-invoked branch). -/
theorem deleteItem_existence_first_witness :
    DeleteItem sampleRepo 2 = (.error .itemNotFound, [.findByID 2]) ∧
    (DeleteItem sampleRepo 1).2 = [.findByID 1, .delete 1] :=
  ⟨(deleteItem_existence_first sampleRepo 2 (by decide)).1 rfl,
   (deleteItem_existence_first sampleRepo 1 (by decide)).2 sampleItem rfl⟩

/-- C4: whenever `UpdateItem` fails with an `InvalidInput` error (any
per-field validation failure included), the storage `update` operation was
never invoked, so no field change is persisted. -/
theorem updateItem_invalid_no_persist (repo : Repo) (now id : Int)
    (input : UpdateItemInput) (e : UsecaseErr) (calls : List RepoCall)
    (h : UpdateItem repo now id input = (.error e, calls))
    (he : isInvalidInput e = true) :
    ∀ it, RepoCall.update it ∉ calls := by
  intro it
  unfold UpdateItem at h
  split at h
  · simp only [Prod.mk.injEq] at h
    rw [← h.2]; simp
  · split at h
    · simp only [Prod.mk.injEq] at h
      rw [← h.2]; simp
    · split at h
      · split at h <;> (simp only [Prod.mk.injEq] at h; rw [← h.2]; simp)
      · split at h
        · simp only [Prod.mk.injEq] at h
          rw [← h.2]; simp
        · split at h
          · simp only [Prod.mk.injEq] at h
            rw [← h.2]; simp
          · split at h
            · simp only [Prod.mk.injEq] at h
              rw [← h.2]; simp
            · split at h
              · simp only [Prod.mk.injEq] at h
                injection h.1 with h1
                rw [← h1] at he
                simp [isInvalidInput] at he
              · exact absurd h (by simp)

/-- Witness for C4 at the spec's scenario `update(1, {purchasePrice: -1})`. -/
theorem updateItem_invalid_no_persist_witness :
    RepoCall.update sampleItem ∉ [RepoCall.findByID 1] :=
  updateItem_invalid_no_persist sampleRepo 9 1
    { name := none, brand := none, purchasePrice := some (-1) }
    (.invalidInput "purchase_price must be 0 or greater") [RepoCall.findByID 1]
    rfl rfl sampleItem

/-- C8: on every successful `UpdateItem` (in particular one touching only
`name`), the result's `updatedAt` equals the current instant `now`
(`time.Now()`); hence whenever the clock is ahead of the stored item's
`updatedAt`, the returned `updatedAt` strictly increases. -/
theorem updateItem_refreshes_updatedAt (repo : Repo) (now id : Int)
    (input : UpdateItemInput) (result stored : Item) (calls : List RepoCall)
    (h : UpdateItem repo now id input = (.ok result, calls)) :
    result.updatedAt = now ∧
    (repo.findByID id = .ok stored → stored.updatedAt < now →
      stored.updatedAt < result.updatedAt) := by
  obtain ⟨stored', i1, i2, i3, hstored, h1, h2, h3, hres, hcalls⟩ :=
    UpdateItem_ok_spec repo now id input result calls h
  have hts : result.updatedAt = now := by rw [hres]
  refine ⟨hts, fun hf hc => ?_⟩
  rw [hts]
  exact hc

/-- Witness for C8: a name-only update of item 1 with the clock at 9,
ahead of the stored `updatedAt` 5. -/
theorem updateItem_refreshes_updatedAt_witness :
    (sampleItem.withName (trimSpace " New ") 9).updatedAt = 9 ∧
    (sampleRepo.findByID 1 = .ok sampleItem → sampleItem.updatedAt < 9 →
      sampleItem.updatedAt < (sampleItem.withName (trimSpace " New ") 9).updatedAt) :=
  updateItem_refreshes_updatedAt sampleRepo 9 1
    { name := some " New ", brand := none, purchasePrice := none }
    (sampleItem.withName (trimSpace " New ") 9) sampleItem
    [RepoCall.findByID 1, RepoCall.update (sampleItem.withName (trimSpace " New ") 9)]
    rfl

/-- C9: in `GetItemByID`, `DeleteItem` and `UpdateItem` (valid id, input
with at least one field), a storage error classified not-found by the
`IsNotFoundError` capability check becomes `ItemNotFound`, and any other
storage failure is wrapped with the operation-specific context and surfaced
as `InternalError`. -/
theorem storage_error_translation (repo : Repo) (now id : Int)
    (input : UpdateItemInput) (e : StorageErr)
    (hid : 0 < id) (hf : repo.findByID id = .error e)
    (hinput : ¬(input.name = none ∧ input.brand = none ∧ input.purchasePrice = none)) :
    (IsNotFoundError e = true →
      GetItemByID repo id = (.error .itemNotFound, [.findByID id]) ∧
      DeleteItem repo id = (.error .itemNotFound, [.findByID id]) ∧
      UpdateItem repo now id input = (.error .itemNotFound, [.findByID id])) ∧
    (IsNotFoundError e = false →
      GetItemByID repo id =
        (.error (.internalError "failed to retrieve item" e), [.findByID id]) ∧
      DeleteItem repo id =
        (.error (.internalError "failed to check item existence" e), [.findByID id]) ∧
      UpdateItem repo now id input =
        (.error (.internalError "failed to retrieve item" e), [.findByID id])) := by
  have hid' : ¬id ≤ 0 := not_le.mpr hid
  constructor <;> intro hnf <;> refine ⟨?_, ?_, ?_⟩
  · unfold GetItemByID; simp [hid', hf, hnf]
  · unfold DeleteItem; simp [hid', hf, hnf]
  · unfold UpdateItem; simp [hid', hf, hnf, hinput]
  · unfold GetItemByID; simp [hid', hf, hnf]
  · unfold DeleteItem; simp [hid', hf, hnf]
  · unfold UpdateItem; simp [hid', hf, hnf, hinput]

/-- Witness for C9: item 2 is absent from `sampleRepo`, so `findByID 2`
reports the not-found condition. -/
theorem storage_error_translation_witness :
    (IsNotFoundError .notFound = true →
      GetItemByID sampleRepo 2 = (.error .itemNotFound, [.findByID 2]) ∧
      DeleteItem sampleRepo 2 = (.error .itemNotFound, [.findByID 2]) ∧
      UpdateItem sampleRepo 9 2 { name := some "x", brand := none, purchasePrice := none } =
        (.error .itemNotFound, [.findByID 2])) ∧
    (IsNotFoundError .notFound = false →
      GetItemByID sampleRepo 2 =
        (.error (.internalError "failed to retrieve item" .notFound), [.findByID 2]) ∧
      DeleteItem sampleRepo 2 =
        (.error (.internalError "failed to check item existence" .notFound), [.findByID 2]) ∧
      UpdateItem sampleRepo 9 2 { name := some "x", brand := none, purchasePrice := none } =
        (.error (.internalError "failed to retrieve item" .notFound), [.findByID 2])) :=
  storage_error_translation sampleRepo 9 2
    { name := some "x", brand := none, purchasePrice := none } .notFound
    (by decide) rfl (by simp)

theorem updateNameField_error (input : UpdateItemInput) (item : Item)
    (e : UsecaseErr) (h : updateNameField input item = .error e) :
    ∃ msg, e = .invalidInput msg := by
  unfold updateNameField at h
  cases hn : input.name with
  | none => simp [hn] at h
  | some raw =>
    simp only [hn] at h
    split at h
    · injection h with h'
      exact ⟨"name is required", h'.symm⟩
    · split at h
      · injection h with h'
        exact ⟨"name must be 100 characters or less", h'.symm⟩
      · exact absurd h (by simp)

/-- C2 (amended: Go `len` counts UTF-8 bytes, not characters): in
`UpdateItem` with a fetched item, a present `name` (resp. `brand`) is
trimmed; an empty trimmed value or one longer than 100 bytes fails with
`InvalidInput` and nothing is persisted, and on success the trimmed value
is assigned. -/
theorem updateItem_name_brand_rules (repo : Repo) (now id : Int)
    (input : UpdateItemInput) (stored : Item)
    (hid : 0 < id) (hfetch : repo.findByID id = .ok stored) :
    (∀ n, input.name = some n → trimSpace n = "" →
      UpdateItem repo now id input =
        (.error (.invalidInput "name is required"), [.findByID id])) ∧
    (∀ n, input.name = some n → 100 < goLen (trimSpace n) →
      UpdateItem repo now id input =
        (.error (.invalidInput "name must be 100 characters or less"), [.findByID id])) ∧
    (∀ n result calls, input.name = some n →
      UpdateItem repo now id input = (.ok result, calls) →
      result.name = trimSpace n) ∧
    (∀ b, input.brand = some b → trimSpace b = "" →
      ∃ msg, UpdateItem repo now id input =
        (.error (.invalidInput msg), [.findByID id])) ∧
    (∀ b, input.brand = some b → 100 < goLen (trimSpace b) →
      ∃ msg, UpdateItem repo now id input =
        (.error (.invalidInput msg), [.findByID id])) ∧
    (∀ b result calls, input.brand = some b →
      UpdateItem repo now id input = (.ok result, calls) →
      result.brand = trimSpace b) := by
  have hid' : ¬id ≤ 0 := not_le.mpr hid
  refine ⟨?_, ?_, ?_, ?_, ?_, ?_⟩
  · intro n hn hempty
    have hname : updateNameField input stored = .error (.invalidInput "name is required") := by
      unfold updateNameField
      simp [hn, hempty]
    unfold UpdateItem
    simp [hid', hfetch, hn, hname]
  · intro n hn hlen
    have hne : ¬trimSpace n = "" := by
      intro h0
      rw [h0] at hlen
      exact absurd hlen (by decide)
    have hname : updateNameField input stored =
        .error (.invalidInput "name must be 100 characters or less") := by
      unfold updateNameField
      simp [hn, hne, hlen]
    unfold UpdateItem
    simp [hid', hfetch, hn, hname]
  · intro n result calls hn h
    obtain ⟨stored', i1, i2, i3, hstored, h1, h2, h3, hres, -⟩ :=
      UpdateItem_ok_spec repo now id input result calls h
    have e1 := (updateNameField_ok input stored' i1 h1).2.2.2.2.2.2.2.2 n hn
    have e2 := (updateBrandField_ok input i1 i2 h2).2.2.2.2.1
    have e3 := (updatePriceField_ok input i2 i3 h3).2.2.2.2.1
    rw [hres]
    show i3.name = trimSpace n
    rw [e3, e2, e1]
  · intro b hb hempty
    cases hNF : updateNameField input stored with
    | error e =>
      obtain ⟨msg, rfl⟩ := updateNameField_error input stored e hNF
      refine ⟨msg, ?_⟩
      unfold UpdateItem
      simp [hid', hfetch, hb, hNF]
    | ok i1 =>
      have hbr : updateBrandField input i1 = .error (.invalidInput "brand is required") := by
        unfold updateBrandField
        simp [hb, hempty]
      refine ⟨"brand is required", ?_⟩
      unfold UpdateItem
      simp [hid', hfetch, hb, hNF, hbr]
  · intro b hb hlen
    have hne : ¬trimSpace b = "" := by
      intro h0
      rw [h0] at hlen
      exact absurd hlen (by decide)
    cases hNF : updateNameField input stored with
    | error e =>
      obtain ⟨msg, rfl⟩ := updateNameField_error input stored e hNF
      refine ⟨msg, ?_⟩
      unfold UpdateItem
      simp [hid', hfetch, hb, hNF]
    | ok i1 =>
      have hbr : updateBrandField input i1 =
          .error (.invalidInput "brand must be 100 characters or less") := by
        unfold updateBrandField
        simp [hb, hne, hlen]
      refine ⟨"brand must be 100 characters or less", ?_⟩
      unfold UpdateItem
      simp [hid', hfetch, hb, hNF, hbr]
  · intro b result calls hb h
    obtain ⟨stored', i1, i2, i3, hstored, h1, h2, h3, hres, -⟩ :=
      UpdateItem_ok_spec repo now id input result calls h
    have e2 := (updateBrandField_ok input i1 i2 h2).2.2.2.2.2.2.2.2 b hb
    have e3 := (updatePriceField_ok input i2 i3 h3).2.2.2.2.2.1
    rw [hres]
    show i3.brand = trimSpace b
    rw [e3, e2]

/-- Witness for C2 at item 1 of the sample repository. -/
theorem updateItem_name_brand_rules_witness :
    (∀ n, c2Input.name = some n → trimSpace n = "" →
      UpdateItem sampleRepo 9 1 c2Input =
        (.error (.invalidInput "name is required"), [.findByID 1])) ∧
    (∀ n, c2Input.name = some n → 100 < goLen (trimSpace n) →
      UpdateItem sampleRepo 9 1 c2Input =
        (.error (.invalidInput "name must be 100 characters or less"), [.findByID 1])) ∧
    (∀ n result calls, c2Input.name = some n →
      UpdateItem sampleRepo 9 1 c2Input = (.ok result, calls) →
      result.name = trimSpace n) ∧
    (∀ b, c2Input.brand = some b → trimSpace b = "" →
      ∃ msg, UpdateItem sampleRepo 9 1 c2Input =
        (.error (.invalidInput msg), [.findByID 1])) ∧
    (∀ b, c2Input.brand = some b → 100 < goLen (trimSpace b) →
      ∃ msg, UpdateItem sampleRepo 9 1 c2Input =
        (.error (.invalidInput msg), [.findByID 1])) ∧
    (∀ b result calls, c2Input.brand = some b →
      UpdateItem sampleRepo 9 1 c2Input = (.ok result, calls) →
      result.brand = trimSpace b) :=
  updateItem_name_brand_rules sampleRepo 9 1 c2Input sampleItem (by decide) rfl

/-- Counterexample to C2 as stated: this name is 34 characters (≤ 100) and
trims to itself (non-empty), so by the claim the update should assign it;
the code instead rejects it with `InvalidInput`, because Go `len` counts
UTF-8 bytes (102 here). -/
theorem updateItem_name_length_counterexample :
    longKanjiName.length = 34 ∧
    trimSpace longKanjiName = longKanjiName ∧
    trimSpace longKanjiName ≠ "" ∧
    UpdateItem sampleRepo 9 1
      { name := some longKanjiName, brand := none, purchasePrice := none } =
      (.error (.invalidInput "name must be 100 characters or less"), [.findByID 1]) := by
  exact ⟨by decide, by decide, by decide, by rfl⟩

/-! ### Association-list lemmas for the summary map -/

theorem summaryEntry_fst (counts : List (String × Int)) (category : String) :
    (summaryEntry counts category).1 = category := by
  unfold summaryEntry
  cases lookupAssoc counts category <;> rfl

theorem summaryEntry_snd (counts : List (String × Int)) (category : String) :
    (summaryEntry counts category).2 = (lookupAssoc counts category).getD 0 := by
  unfold summaryEntry
  cases lookupAssoc counts category <;> rfl

theorem summaryMap_keys (counts : List (String × Int)) (l : List String) :
    ((l.map (summaryEntry counts)).map Prod.fst) = l := by
  induction l with
  | nil => rfl
  | cons c cs ih => simp [ih, summaryEntry_fst]

theorem lookupAssoc_summaryMap (counts : List (String × Int)) (l : List String)
    (k : String) (hk : k ∈ l) :
    lookupAssoc (l.map (summaryEntry counts)) k = some ((lookupAssoc counts k).getD 0) := by
  induction l with
  | nil => exact absurd hk (by simp)
  | cons c cs ih =>
    by_cases hck : c = k
    · subst hck
      rw [List.map_cons]
      rw [show lookupAssoc (summaryEntry counts c :: cs.map (summaryEntry counts)) c =
        if (summaryEntry counts c).1 = c then some (summaryEntry counts c).2
        else lookupAssoc (cs.map (summaryEntry counts)) c from rfl]
      simp [summaryEntry_fst, summaryEntry_snd]
    · have hk' : k ∈ cs := by
        rcases List.mem_cons.mp hk with h | h
        · exact absurd h.symm hck
        · exact h
      rw [List.map_cons]
      rw [show lookupAssoc (summaryEntry counts c :: cs.map (summaryEntry counts)) k =
        if (summaryEntry counts c).1 = k then some (summaryEntry counts c).2
        else lookupAssoc (cs.map (summaryEntry counts)) k from rfl]
      rw [summaryEntry_fst]
      simp only [hck, if_false]
      exact ih hk'

theorem lookupAssoc_summaryMap_not_mem (counts : List (String × Int))
    (l : List String) (k : String) (hk : k ∉ l) :
    lookupAssoc (l.map (summaryEntry counts)) k = none := by
  induction l with
  | nil => rfl
  | cons c cs ih =>
    have hck : ¬c = k := fun h => hk (by rw [h]; exact List.mem_cons_self _ _)
    have hk' : k ∉ cs := fun h => hk (List.mem_cons_of_mem _ h)
    rw [List.map_cons]
    rw [show lookupAssoc (summaryEntry counts c :: cs.map (summaryEntry counts)) k =
      if (summaryEntry counts c).1 = k then some (summaryEntry counts c).2
      else lookupAssoc (cs.map (summaryEntry counts)) k from rfl]
    rw [summaryEntry_fst]
    simp only [hck, if_false]
    exact ih hk'

theorem foldl_add_snd (l : List (String × Int)) (a : Int) :
    l.foldl (fun t p => t + p.2) a = a + (l.map Prod.snd).sum := by
  induction l generalizing a with
  | nil => simp
  | cons p ps ih =>
    rw [List.foldl_cons, ih, List.map_cons, List.sum_cons]
    ring

theorem cons_lookup_sum (k' : String) (v : Int) (rest : List (String × Int))
    (l : List String) (hl : l.Nodup) (hnone : lookupAssoc rest k' = none) :
    (l.map fun c => (lookupAssoc ((k', v) :: rest) c).getD 0).sum
      = (if k' ∈ l then v else 0) + (l.map fun c => (lookupAssoc rest c).getD 0).sum := by
  induction l with
  | nil => simp
  | cons c cs ih =>
    have hccs : c ∉ cs := (List.nodup_cons.mp hl).1
    have hcs : cs.Nodup := (List.nodup_cons.mp hl).2
    rw [List.map_cons, List.sum_cons, List.map_cons, List.sum_cons, ih hcs]
    by_cases hkc : k' = c
    · subst hkc
      have hmem : k' ∈ k' :: cs := List.mem_cons_self _ _
      have hnotin : k' ∉ cs := hccs
      rw [show lookupAssoc ((k', v) :: rest) k' = if k' = k' then some v else lookupAssoc rest k'
        from rfl]
      simp only [if_pos rfl, if_pos hmem, if_neg hnotin, hnone]
      simp
    · have hmem : k' ∈ c :: cs ↔ k' ∈ cs := by
        constructor
        · intro h
          rcases List.mem_cons.mp h with h | h
          · exact absurd h hkc
          · exact h
        · exact List.mem_cons_of_mem _
      rw [show lookupAssoc ((k', v) :: rest) c = if k' = c then some v else lookupAssoc rest c
        from rfl]
      simp only [if_neg hkc]
      by_cases hkcs : k' ∈ cs
      · simp only [if_pos (hmem.mpr hkcs), if_pos hkcs]
        ring
      · simp only [if_neg (fun h => hkcs (hmem.mp h)), if_neg hkcs]
        ring

theorem lookupAssoc_eq_none_of_not_mem (l : List (String × Int)) (k : String)
    (hk : k ∉ l.map Prod.fst) : lookupAssoc l k = none := by
  induction l with
  | nil => rfl
  | cons p ps ih =>
    have h1 : ¬p.1 = k := fun h => hk (by rw [List.map_cons]; exact h ▸ List.mem_cons_self _ _)
    have h2 : k ∉ ps.map Prod.fst := fun h => hk (by rw [List.map_cons]; exact List.mem_cons_of_mem _ h)
    rw [show lookupAssoc (p :: ps) k = if p.1 = k then some p.2 else lookupAssoc ps k from
      by cases p; rfl]
    simp only [if_neg h1]
    exact ih h2

theorem sum_lookup_eq_sum_filter (l : List String) (hl : l.Nodup)
    (counts : List (String × Int)) (hnodup : (counts.map Prod.fst).Nodup) :
    (l.map fun c => (lookupAssoc counts c).getD 0).sum
      = ((counts.filter fun p => decide (p.1 ∈ l)).map Prod.snd).sum := by
  induction counts with
  | nil =>
    have : ∀ c : String, (lookupAssoc [] c).getD 0 = 0 := fun c => rfl
    simp [List.filter_nil, lookupAssoc]
  | cons p ps ih =>
    obtain ⟨k', v⟩ := p
    have hkey : k' ∉ ps.map Prod.fst := by
      rw [List.map_cons] at hnodup
      exact (List.nodup_cons.mp hnodup).1
    have hps : (ps.map Prod.fst).Nodup := by
      rw [List.map_cons] at hnodup
      exact (List.nodup_cons.mp hnodup).2
    have hnone : lookupAssoc ps k' = none := lookupAssoc_eq_none_of_not_mem ps k' hkey
    rw [cons_lookup_sum k' v ps l hl hnone, ih hps]
    by_cases hmem : k' ∈ l
    · rw [List.filter_cons]
      simp [hmem]
    · rw [List.filter_cons]
      simp [hmem]

theorem summaryMap_values (counts : List (String × Int)) (l : List String) :
    (l.map (summaryEntry counts)).map Prod.snd
      = l.map fun c => (lookupAssoc counts c).getD 0 := by
  induction l with
  | nil => rfl
  | cons c cs ih => simp [ih, summaryEntry_snd]

theorem sum_map_filter_split (l : List (String × Int)) (p : (String × Int) → Bool) :
    (l.map Prod.snd).sum
      = ((l.filter p).map Prod.snd).sum + ((l.filter fun a => !(p a)).map Prod.snd).sum := by
  induction l with
  | nil => simp
  | cons x xs ih =>
    by_cases hx : p x <;> simp [List.filter_cons, hx, ih] <;> ring

/-- C3: on storage success, `GetCategorySummary` returns a mapping whose key
list is exactly the valid-category list — storage-reported valid categories
keep their count, absent ones get 0 — and a total equal to the sum of all
storage-reported counts. -/
theorem getCategorySummary_complete (repo : Repo) (counts : List (String × Int))
    (summary : CategorySummary) (calls : List RepoCall)
    (hnodup : (counts.map Prod.fst).Nodup)
    (hok : repo.getSummaryByCategory = .ok counts)
    (hres : GetCategorySummary repo = (.ok summary, calls)) :
    summary.categories.map Prod.fst = GetValidCategories ∧
    (∀ c count, c ∈ GetValidCategories → lookupAssoc counts c = some count →
      lookupAssoc summary.categories c = some count) ∧
    (∀ c, c ∈ GetValidCategories → lookupAssoc counts c = none →
      lookupAssoc summary.categories c = some 0) ∧
    summary.total = (counts.map Prod.snd).sum := by
  unfold GetCategorySummary at hres
  rw [hok] at hres
  simp only [Prod.mk.injEq, Except.ok.injEq] at hres
  obtain ⟨hsum, -⟩ := hres
  subst hsum
  refine ⟨summaryMap_keys counts GetValidCategories, ?_, ?_, ?_⟩
  · intro c count hc hl
    have h := lookupAssoc_summaryMap counts GetValidCategories c hc
    rw [hl] at h
    simpa using h
  · intro c hc hl
    have h := lookupAssoc_summaryMap counts GetValidCategories c hc
    rw [hl] at h
    simpa using h
  · simpa using foldl_add_snd counts 0

/-- Witness for C3 on the sample repository, whose storage reports
`{時計 ↦ 2}`. -/
theorem getCategorySummary_complete_witness :
    (CategorySummary.mk
        [("時計", 2), ("バッグ", 0), ("ジュエリー", 0), ("靴", 0), ("その他", 0)] 2).categories.map
        Prod.fst = GetValidCategories ∧
    (∀ c count, c ∈ GetValidCategories → lookupAssoc [("時計", 2)] c = some count →
      lookupAssoc (CategorySummary.mk
        [("時計", 2), ("バッグ", 0), ("ジュエリー", 0), ("靴", 0), ("その他", 0)] 2).categories c =
        some count) ∧
    (∀ c, c ∈ GetValidCategories → lookupAssoc [("時計", 2)] c = none →
      lookupAssoc (CategorySummary.mk
        [("時計", 2), ("バッグ", 0), ("ジュエリー", 0), ("靴", 0), ("その他", 0)] 2).categories c =
        some 0) ∧
    (CategorySummary.mk
        [("時計", 2), ("バッグ", 0), ("ジュエリー", 0), ("靴", 0), ("その他", 0)] 2).total =
      ([("時計", (2 : Int))].map Prod.snd).sum :=
  getCategorySummary_complete sampleRepo [("時計", 2)]
    (CategorySummary.mk
      [("時計", 2), ("バッグ", 0), ("ジュエリー", 0), ("靴", 0), ("その他", 0)] 2)
    [.summary] (by decide) rfl rfl

/-- C10: when storage reports a category key outside the valid set (with a
positive count, all counts nonnegative), `GetCategorySummary` omits the key
from `Categories` but still includes its count in `Total`, so `Total`
strictly exceeds the sum of the values in `Categories`. -/
theorem getCategorySummary_invalid_key (repo : Repo) (counts : List (String × Int))
    (summary : CategorySummary) (calls : List RepoCall) (k : String) (c : Int)
    (hnodup : (counts.map Prod.fst).Nodup)
    (hok : repo.getSummaryByCategory = .ok counts)
    (hres : GetCategorySummary repo = (.ok summary, calls))
    (hk : k ∉ GetValidCategories) (hmem : (k, c) ∈ counts)
    (hpos : 0 < c) (hnonneg : ∀ p ∈ counts, 0 ≤ p.2) :
    lookupAssoc summary.categories k = none ∧
    summary.total = (counts.map Prod.snd).sum ∧
    (summary.categories.map Prod.snd).sum < summary.total := by
  unfold GetCategorySummary at hres
  rw [hok] at hres
  simp only [Prod.mk.injEq, Except.ok.injEq] at hres
  obtain ⟨hsum, -⟩ := hres
  subst hsum
  have htotal :
      (CategorySummary.mk (GetValidCategories.map (summaryEntry counts))
        (counts.foldl (fun t p => t + p.2) 0)).total = (counts.map Prod.snd).sum := by
    simpa using foldl_add_snd counts 0
  refine ⟨lookupAssoc_summaryMap_not_mem counts GetValidCategories k hk, htotal, ?_⟩
  have hvc : GetValidCategories.Nodup := by decide
  have hcat :
      ((GetValidCategories.map (summaryEntry counts)).map Prod.snd).sum
        = ((counts.filter fun p => decide (p.1 ∈ GetValidCategories)).map Prod.snd).sum := by
    rw [summaryMap_values]
    exact sum_lookup_eq_sum_filter GetValidCategories hvc counts hnodup
  have hsplit := sum_map_filter_split counts (fun p => decide (p.1 ∈ GetValidCategories))
  have hkmem : (k, c) ∈ counts.filter fun p => !(decide (p.1 ∈ GetValidCategories)) :=
    List.mem_filter.mpr ⟨hmem, by simp [hk]⟩
  have hcle : c ≤ ((counts.filter fun p => !(decide (p.1 ∈ GetValidCategories))).map Prod.snd).sum := by
    refine List.single_le_sum ?_ c ?_
    · intro x hx
      obtain ⟨p, hp, rfl⟩ := List.mem_map.mp hx
      exact hnonneg p (List.mem_of_mem_filter hp)
    · exact List.mem_map.mpr ⟨(k, c), hkmem, rfl⟩
  rw [htotal, hcat, hsplit]
  omega

/-- Witness for C10: storage reports `{時計 ↦ 2, 偽物 ↦ 3}` where 偽物 is not
a valid category; the summary's total is 5 but its per-category values sum
to 2. -/
theorem getCategorySummary_invalid_key_witness :
    lookupAssoc (CategorySummary.mk
        [("時計", 2), ("バッグ", 0), ("ジュエリー", 0), ("靴", 0), ("その他", 0)] 5).categories
        "偽物" = none ∧
    (CategorySummary.mk
        [("時計", 2), ("バッグ", 0), ("ジュエリー", 0), ("靴", 0), ("その他", 0)] 5).total =
      ([("時計", (2 : Int)), ("偽物", 3)].map Prod.snd).sum ∧
    ((CategorySummary.mk
        [("時計", 2), ("バッグ", 0), ("ジュエリー", 0), ("靴", 0), ("その他", 0)] 5).categories.map
        Prod.snd).sum <
      (CategorySummary.mk
        [("時計", 2), ("バッグ", 0), ("ジュエリー", 0), ("靴", 0), ("その他", 0)] 5).total :=
  getCategorySummary_invalid_key invalidKeyRepo [("時計", 2), ("偽物", 3)]
    (CategorySummary.mk
      [("時計", 2), ("バッグ", 0), ("ジュエリー", 0), ("靴", 0), ("その他", 0)] 5)
    [.summary] "偽物" 3 (by decide) rfl rfl (by decide) (by decide) (by decide)
    (by decide)

end ItemCatalog
